import Mathlib

/-!
# SpanID codec of `model/v2/spanid.go`

A shallow embedding of the Go type `SpanID` (`[8]byte`) and of its binary and JSON
marshalling methods, followed by theorems about them.

Conventions of the embedding:

* a Go `byte` is a `Fin 256`;
* a Go slice `[]byte` is a `List Byte` (only its length and contents are
  observed by the code, never its capacity);
* a Go `error` result is an `Option GoError`, `none` standing for `nil`;
* a method with a pointer receiver (`Unmarshal`) takes the receiver's value
  before the call and returns its value after the call;
* a method that writes into a caller-supplied slice (`MarshalTo`) returns the
  slice's contents after the call;
* Go `int` results are lengths between 0 and 8 and are modelled as `Nat`;
* the helpers `marshalJSON` and `unmarshalJSON`, which the file calls and does not
  define, are parameters of the JSON methods; a model of them written from the
  specification is given separately.
-/

set_option autoImplicit false

namespace Model

/-! ## Data model -/

/-- A Go byte, an unsigned 8-bit value. -/
abbrev Byte := Fin 256

/-- Source: `const spanIDSize = 8`. -/
def spanIDSize : Nat := 8

/-- A Go error value made by `errors.New`, carrying its message. -/
structure GoError where
  msg : String
deriving DecidableEq, Repr

/-- Source: `errMarshalSpanID = errors.New("marshal: invalid buffer length for SpanID")`. -/
def errMarshalSpanID : GoError := ⟨"marshal: invalid buffer length for SpanID"⟩

/-- Source: `errUnmarshalSpanID = errors.New("unmarshal: invalid SpanID length")`. -/
def errUnmarshalSpanID : GoError := ⟨"unmarshal: invalid SpanID length"⟩

/-- Source: `type SpanID [spanIDSize]byte`, an array of exactly `spanIDSize` bytes. -/
structure SpanID where
  bytes : List Byte
  size_eq : bytes.length = spanIDSize
deriving DecidableEq

/-- The byte at index `i` of the array, `sid[i]` in Go. -/
def SpanID.get (sid : SpanID) (i : Fin spanIDSize) : Byte :=
  sid.bytes.get ⟨i.val, by rw [sid.size_eq]; exact i.isLt⟩

/-- The composite literal `[spanIDSize]byte{}`: every element is the zero byte. -/
def zeroValue : SpanID := ⟨List.replicate spanIDSize 0, List.length_replicate _ _⟩

/-! ## The Go builtin `copy` -/

/-- Go builtin `copy(dst, src)`: copies `min(len(dst), len(src))` elements from the
front of `src` over the front of `dst`; returns the contents of `dst` afterwards
and the number of elements copied. -/
def goCopy (dst src : List Byte) : List Byte × Nat :=
  let n := min dst.length src.length
  (src.take n ++ dst.drop n, n)

/-- The statement `copy(sid[:], src)`: the slice `sid[:]` aliases the array, so the
copy overwrites the front of the array; returns the array afterwards and the count. -/
def SpanID.copyFrom (sid : SpanID) (src : List Byte) : SpanID × Nat :=
  (⟨(goCopy sid.bytes src).1, by
      have h := sid.size_eq
      simp only [goCopy, List.length_append, List.length_take, List.length_drop]
      omega⟩,
   (goCopy sid.bytes src).2)

/-! ## Methods of `SpanID` -/

/-- Source: `func (sid SpanID) IsEmpty() bool { return sid == [spanIDSize]byte{} }`. -/
def SpanID.IsEmpty (sid : SpanID) : Bool :=
  decide (sid = zeroValue)

/-- Source: `func (sid SpanID) Size() int`. -/
def SpanID.Size (sid : SpanID) : Nat :=
  if sid.IsEmpty then 0 else spanIDSize

/-- Source: `func (sid SpanID) MarshalTo(data []byte) (n int, err error)`.
Returns the contents of `data` after the call, `n` and `err`. -/
def SpanID.MarshalTo (sid : SpanID) (data : List Byte) : List Byte × Nat × Option GoError :=
  if sid.IsEmpty then
    (data, 0, none)
  else if data.length < spanIDSize then
    (data, 0, some errMarshalSpanID)
  else
    ((goCopy data sid.bytes).1, (goCopy data sid.bytes).2, none)

/-- Source: `func (sid SpanID) Marshal() ([]byte, error) { return sid[:], nil }`. -/
def SpanID.Marshal (sid : SpanID) : List Byte × Option GoError :=
  (sid.bytes, none)

/-- Source: `func (sid *SpanID) Unmarshal(data []byte) error`.
Takes the receiver before the call; returns the receiver after the call and the error. -/
def SpanID.Unmarshal (sid : SpanID) (data : List Byte) : SpanID × Option GoError :=
  if data.length = 0 then
    (zeroValue, none)
  else if data.length ≠ spanIDSize then
    (sid, some errUnmarshalSpanID)
  else
    ((sid.copyFrom data).1, none)

/-! ## JSON methods of `SpanID`

The helpers `marshalJSON` and `unmarshalJSON` are called by `spanid.go` but are not
defined in it. The two methods below take the helper as a parameter; a helper that
writes into a caller-supplied slice returns the contents of that slice after the call
together with its error. -/

/-- The type of the helper called as `marshalJSON(sid[:])`: from the bytes to encode
to the JSON bytes and the error. -/
abbrev MarshalHelper := List Byte → List Byte × Option GoError

/-- The type of the helper called as `unmarshalJSON(buf[:], data)`: from the contents
of the destination slice before the call and the input to the contents of the
destination slice after the call and the error. -/
abbrev UnmarshalHelper := List Byte → List Byte → List Byte × Option GoError

/-- The ASCII double-quote character, byte 0x22. -/
def quoteByte : Byte := 34

/-- Source: `func (sid SpanID) MarshalJSON() ([]byte, error)`; the byte string of two
double quotes when `IsEmpty`, otherwise whatever `marshalJSON(sid[:])` returns. -/
def SpanID.MarshalJSON (helper : MarshalHelper) (sid : SpanID) : List Byte × Option GoError :=
  if sid.IsEmpty then
    ([quoteByte, quoteByte], none)
  else
    helper sid.bytes

/-- Source: `func (sid *SpanID) UnmarshalJSON(data []byte) error`.
The buffer `buf` is a zeroed array of `spanIDSize + 1` bytes handed to the helper; on a
helper error the method returns it without touching the receiver, otherwise it sets the
receiver to the zero array and copies `buf[:spanIDSize]` over it.
Takes the receiver before the call; returns the receiver after the call and the error. -/
def SpanID.UnmarshalJSON (helper : UnmarshalHelper) (sid : SpanID) (data : List Byte) :
    SpanID × Option GoError :=
  match helper (List.replicate (spanIDSize + 1) 0) data with
  | (_, some err) => (sid, some err)
  | (buf, none) => ((zeroValue.copyFrom (buf.take spanIDSize)).1, none)

/-! ## The JSON helpers, modelled from the specification -/

/-- Modelled from the spec: part of the missing helper `marshalJSON`; the lower-case
hexadecimal digit, as an ASCII byte, of a value below 16. -/
def hexDigit (n : Nat) : Byte :=
  if n < 10 then Fin.ofNat (48 + n) else Fin.ofNat (87 + n)

/-- Modelled from the spec: part of the missing helper `marshalJSON`; hex-encodes a
byte string, two digits per byte, high digit first. -/
def hexEncode : List Byte → List Byte
  | [] => []
  | b :: bs => hexDigit (b.val / 16) :: hexDigit (b.val % 16) :: hexEncode bs

/-- Modelled from the spec: part of the missing helper `unmarshalJSON`; the value of a
hexadecimal digit given as an ASCII byte, if it is one. -/
def hexValue (c : Byte) : Option Nat :=
  if 48 ≤ c.val ∧ c.val ≤ 57 then some (c.val - 48)
  else if 97 ≤ c.val ∧ c.val ≤ 102 then some (c.val - 87)
  else if 65 ≤ c.val ∧ c.val ≤ 70 then some (c.val - 55)
  else none

/-- Modelled from the spec: part of the missing helper `unmarshalJSON`; decodes a hex
string into bytes, `none` when the length is odd or a character is not a hexadecimal
digit. -/
def hexDecode : List Byte → Option (List Byte)
  | [] => some []
  | [_] => none
  | hi :: lo :: rest =>
    match hexValue hi, hexValue lo, hexDecode rest with
    | some h, some l, some bs => some (Fin.ofNat (16 * h + l) :: bs)
    | _, _, _ => none

/-- Modelled from the spec: part of the missing helper `unmarshalJSON`; removes one
pair of enclosing double quotes, when the input has both. -/
def stripQuotes (src : List Byte) : List Byte :=
  if 2 ≤ src.length ∧ src.head? = some quoteByte ∧ src.getLast? = some quoteByte then
    (src.drop 1).take (src.length - 2)
  else
    src

/-- Modelled from the spec: the error of the missing helper `unmarshalJSON` for a
payload that is not valid hex. -/
def errMalformedID : GoError := ⟨"cannot unmarshal ID from string"⟩

/-- Modelled from the spec: the error of the missing helper `unmarshalJSON` for a
payload that exceeds the buffer. -/
def errIDLength : GoError := ⟨"invalid length for ID"⟩

/-- Modelled from the spec: the helper `marshalJSON`, which `spanid.go` calls and does
not define. The specification describes it as the generic byte-to-hex-JSON-string
helper that hex-encodes the raw bytes and wraps the result in double quotes, and that
never fails. -/
def marshalJSON : MarshalHelper := fun id =>
  (quoteByte :: hexEncode id ++ [quoteByte], none)

/-- Modelled from the spec: the helper `unmarshalJSON`, which `spanid.go` calls and does
not define. The specification describes it as decoding a textual payload, possibly
enclosed in quotes, into a fixed-size buffer, failing on malformed input or wrong
size, with a decoded-size budget given by the buffer (9 bytes for a SpanID); it
requires both the empty string literal and a 16-character hex string to be accepted
with that buffer. The payload is taken as hex, the encoding of `marshalJSON`; a payload
longer than the buffer is the wrong size; the decoded bytes are written to the front of
the buffer. -/
def unmarshalJSON : UnmarshalHelper := fun dst src =>
  match hexDecode (stripQuotes src) with
  | none => (dst, some errMalformedID)
  | some payload =>
    if dst.length < payload.length then
      (dst, some errIDLength)
    else
      ((goCopy dst payload).1, none)

/-! ## Sample values used to exercise the definitions -/

/-- The identifier with bytes 01 02 03 04 05 06 07 08. -/
def sampleID : SpanID := ⟨[1, 2, 3, 4, 5, 6, 7, 8], rfl⟩

/-- An identifier whose only non-zero byte is the last one. -/
def lastByteID : SpanID := ⟨[0, 0, 0, 0, 0, 0, 0, 1], rfl⟩

/-- The JSON text of `sampleID`: a double quote, the sixteen characters
0102030405060708, a double quote. -/
def sampleJSON : List Byte :=
  [34, 48, 49, 48, 50, 48, 51, 48, 52, 48, 53, 48, 54, 48, 55, 48, 56, 34]

/-! ## Evaluation of the embedding on concrete inputs -/

example : sampleID.IsEmpty = false := by decide
example : zeroValue.IsEmpty = true := by decide
example : sampleID.Size = 8 := by decide
example : sampleID.MarshalTo [9, 9, 9, 9, 9, 9, 9, 9, 9, 9]
    = ([1, 2, 3, 4, 5, 6, 7, 8, 9, 9], 8, none) := by decide
example : sampleID.MarshalTo [9, 9, 9] = ([9, 9, 9], 0, some errMarshalSpanID) := by decide
example : zeroValue.MarshalTo [] = ([], 0, none) := by decide
example : lastByteID.Unmarshal sampleID.Marshal.1 = (sampleID, none) := by decide
example : sampleID.Unmarshal [] = (zeroValue, none) := by decide
example : sampleID.Unmarshal [7] = (sampleID, some errUnmarshalSpanID) := by decide

example : sampleID.MarshalJSON marshalJSON = (sampleJSON, none) := by decide
example : zeroValue.MarshalJSON marshalJSON = ([34, 34], none) := by decide
example : lastByteID.UnmarshalJSON unmarshalJSON sampleJSON = (sampleID, none) := by decide
example : sampleID.UnmarshalJSON unmarshalJSON [34, 34] = (zeroValue, none) := by decide
example : sampleID.UnmarshalJSON unmarshalJSON [34, 48, 34]
    = (sampleID, some errMalformedID) := by decide
example : hexDecode (hexEncode [0, 171, 255]) = some [0, 171, 255] := by decide

/-! ## Auxiliary lemmas -/

theorem SpanID.eq_of_bytes_eq {a b : SpanID} (h : a.bytes = b.bytes) : a = b := by
  cases a
  cases b
  cases h
  rfl

theorem SpanID.getElem?_bytes (sid : SpanID) (i : Fin spanIDSize) :
    sid.bytes[i.val]? = some (sid.get i) := by
  have hi : i.val < sid.bytes.length := by rw [sid.size_eq]; exact i.isLt
  rw [List.getElem?_eq_getElem hi]
  rfl

theorem SpanID.isEmpty_eq_true_iff (sid : SpanID) : sid.IsEmpty = true ↔ sid = zeroValue := by
  simp [SpanID.IsEmpty]

theorem SpanID.isEmpty_eq_false_iff (sid : SpanID) : sid.IsEmpty = false ↔ sid ≠ zeroValue := by
  simp [SpanID.IsEmpty]

theorem zeroValue_isEmpty : zeroValue.IsEmpty = true := by
  simp [SpanID.IsEmpty]

/-- Copying 8 bytes into a buffer of at least 8 bytes overwrites exactly the first 8. -/
theorem goCopy_of_le (dst src : List Byte) (hs : src.length = 8) (hd : 8 ≤ dst.length) :
    goCopy dst src = (src ++ dst.drop 8, 8) := by
  have hmin : min dst.length src.length = 8 := by omega
  simp only [goCopy, hmin]
  rw [List.take_of_length_le (by omega)]

/-- Copying 8 bytes over an 8-byte array replaces the whole array. -/
theorem SpanID.copyFrom_of_length (sid : SpanID) (src : List Byte) (hs : src.length = 8) :
    sid.copyFrom src = (⟨src, hs⟩, 8) := by
  have hd : 8 ≤ sid.bytes.length := by rw [sid.size_eq]; exact Nat.le_refl _
  have hdrop : sid.bytes.drop 8 = [] := by
    apply List.drop_of_length_le
    rw [sid.size_eq]
    exact Nat.le_refl _
  have hc := goCopy_of_le sid.bytes src hs hd
  rw [hdrop, List.append_nil] at hc
  unfold SpanID.copyFrom
  refine Prod.ext (SpanID.eq_of_bytes_eq ?_) ?_
  · simp [hc]
  · simp [hc]

theorem SpanID.unmarshal_of_length_eight (sid : SpanID) (data : List Byte)
    (h : data.length = 8) : sid.Unmarshal data = (⟨data, h⟩, none) := by
  unfold SpanID.Unmarshal
  simp [h, spanIDSize, SpanID.copyFrom_of_length sid data h]

theorem SpanID.unmarshal_of_bad_length (sid : SpanID) (data : List Byte)
    (h0 : data.length ≠ 0) (h8 : data.length ≠ 8) :
    sid.Unmarshal data = (sid, some errUnmarshalSpanID) := by
  unfold SpanID.Unmarshal
  simp [h0, h8, spanIDSize]

theorem SpanID.marshalTo_of_isEmpty (sid : SpanID) (data : List Byte)
    (h : sid.IsEmpty = true) : sid.MarshalTo data = (data, 0, none) := by
  simp [SpanID.MarshalTo, h]

theorem SpanID.marshalTo_of_short (sid : SpanID) (data : List Byte)
    (h : sid.IsEmpty = false) (hlen : data.length < 8) :
    sid.MarshalTo data = (data, 0, some errMarshalSpanID) := by
  simp [SpanID.MarshalTo, h, spanIDSize, hlen]

theorem SpanID.marshalTo_of_fits (sid : SpanID) (data : List Byte)
    (h : sid.IsEmpty = false) (hlen : 8 ≤ data.length) :
    sid.MarshalTo data = (sid.bytes ++ data.drop 8, 8, none) := by
  have hnot : ¬ data.length < 8 := by omega
  simp [SpanID.MarshalTo, h, spanIDSize, hnot, goCopy_of_le data sid.bytes sid.size_eq hlen]

theorem SpanID.eq_zeroValue_iff (sid : SpanID) :
    sid = zeroValue ↔ ∀ i : Fin spanIDSize, sid.get i = 0 := by
  constructor
  · intro h i
    subst h
    simp [SpanID.get, zeroValue]
  · intro h
    apply SpanID.eq_of_bytes_eq
    show sid.bytes = List.replicate spanIDSize 0
    rw [List.eq_replicate_iff]
    refine ⟨sid.size_eq, ?_⟩
    intro b hb
    obtain ⟨n, hn, rfl⟩ := List.getElem_of_mem hb
    exact h ⟨n, by rw [← sid.size_eq]; exact hn⟩

theorem SpanID.size_of_isEmpty (sid : SpanID) (h : sid.IsEmpty = true) : sid.Size = 0 := by
  simp [SpanID.Size, h]

theorem SpanID.size_of_not_isEmpty (sid : SpanID) (h : sid.IsEmpty = false) : sid.Size = 8 := by
  simp [SpanID.Size, h, spanIDSize]

theorem goCopy_length (dst src : List Byte) : (goCopy dst src).1.length = dst.length := by
  simp only [goCopy, List.length_append, List.length_take, List.length_drop]
  omega

theorem SpanID.unmarshal_nil (sid : SpanID) : sid.Unmarshal [] = (zeroValue, none) := by
  simp [SpanID.Unmarshal]

theorem SpanID.unmarshalJSON_of_helper_error (helper : UnmarshalHelper) (sid : SpanID)
    (data buf : List Byte) (e : GoError)
    (h : helper (List.replicate 9 0) data = (buf, some e)) :
    sid.UnmarshalJSON helper data = (sid, some e) := by
  have h9 : helper (List.replicate (spanIDSize + 1) 0) data = (buf, some e) := h
  simp only [SpanID.UnmarshalJSON, h9]

theorem SpanID.unmarshalJSON_of_helper_ok (helper : UnmarshalHelper) (sid : SpanID)
    (data buf : List Byte) (h : helper (List.replicate 9 0) data = (buf, none)) :
    sid.UnmarshalJSON helper data = ((zeroValue.copyFrom (buf.take 8)).1, none) := by
  have h9 : helper (List.replicate (spanIDSize + 1) 0) data = (buf, none) := h
  simp only [SpanID.UnmarshalJSON, h9]
  rfl

theorem hexValue_hexDigit (n : Nat) (h : n < 16) : hexValue (hexDigit n) = some n := by
  interval_cases n <;> rfl

theorem hexDecode_hexEncode (bs : List Byte) : hexDecode (hexEncode bs) = some bs := by
  induction bs with
  | nil => rfl
  | cons b bs ih =>
    have hb := b.isLt
    have hhi : hexValue (hexDigit (b.val / 16)) = some (b.val / 16) :=
      hexValue_hexDigit _ (by omega)
    have hlo : hexValue (hexDigit (b.val % 16)) = some (b.val % 16) :=
      hexValue_hexDigit _ (by omega)
    have hval : (Fin.ofNat (16 * (b.val / 16) + b.val % 16) : Byte) = b := by
      apply Fin.ext
      show (16 * (b.val / 16) + b.val % 16) % 256 = b.val
      omega
    simp only [hexEncode, hexDecode, hhi, hlo, ih, hval]

theorem hexEncode_length (bs : List Byte) : (hexEncode bs).length = 2 * bs.length := by
  induction bs with
  | nil => rfl
  | cons b bs ih => simp only [hexEncode, List.length_cons, ih]; omega

theorem hexEncode_getElem? (bs : List Byte) (i : Nat) :
    (hexEncode bs)[2 * i]? = bs[i]?.map (fun b => hexDigit (b.val / 16)) ∧
    (hexEncode bs)[2 * i + 1]? = bs[i]?.map (fun b => hexDigit (b.val % 16)) := by
  induction bs generalizing i with
  | nil => simp [hexEncode]
  | cons b bs ih =>
    cases i with
    | zero => simp [hexEncode]
    | succ j =>
      have h1 : 2 * (j + 1) = 2 * j + 1 + 1 := by omega
      rw [h1]
      simp only [hexEncode, List.getElem?_cons_succ]
      exact ih j

theorem stripQuotes_quoted (xs : List Byte) :
    stripQuotes (quoteByte :: xs ++ [quoteByte]) = xs := by
  have hlen : 2 ≤ (quoteByte :: xs ++ [quoteByte]).length := by
    simp only [List.cons_append, List.length_cons, List.length_append, List.length_nil]
    omega
  have hlast : (quoteByte :: xs ++ [quoteByte]).getLast? = some quoteByte := by
    exact List.getLast?_concat (quoteByte :: xs)
  have hhead : (quoteByte :: xs ++ [quoteByte]).head? = some quoteByte := rfl
  unfold stripQuotes
  rw [if_pos ⟨hlen, hhead, hlast⟩]
  simp

theorem unmarshalJSON_length (dst src : List Byte) :
    (unmarshalJSON dst src).1.length = dst.length := by
  unfold unmarshalJSON
  cases hexDecode (stripQuotes src) with
  | none => rfl
  | some payload =>
    by_cases h : dst.length < payload.length
    · simp [h]
    · simp [h, goCopy_length]

/-- The modelled helper decodes the quoted hex text of 8 bytes to the front of a zeroed
9-byte buffer. -/
theorem unmarshalJSON_marshalJSON (bs : List Byte) (h : bs.length = 8) :
    unmarshalJSON (List.replicate 9 0) (marshalJSON bs).1 = (bs ++ [0], none) := by
  have hmin : min (List.replicate 9 (0 : Byte)).length bs.length = 8 := by
    rw [List.length_replicate, h]
    rfl
  have hnot : ¬ (List.replicate 9 (0 : Byte)).length < bs.length := by
    rw [List.length_replicate, h]
    omega
  have htake : bs.take 8 = bs := List.take_of_length_le (by omega)
  simp only [unmarshalJSON, marshalJSON, stripQuotes_quoted, hexDecode_hexEncode, hnot,
    if_false, goCopy, hmin, htake]
  rfl

/-! ## Binary round trip -/

/-- C1: for every SpanID `id`, `Marshal` succeeds and `Unmarshal` applied to the bytes
it returns succeeds and leaves the receiver equal to `id`, whatever value `r` the
receiver held before (empty or not). -/
theorem Unmarshal_Marshal_roundtrip (id r : SpanID) :
    id.Marshal.2 = none ∧ r.Unmarshal id.Marshal.1 = (id, none) := by
  refine ⟨rfl, ?_⟩
  have h : id.Marshal.1.length = 8 := id.size_eq
  rw [SpanID.unmarshal_of_length_eight r _ h]
  rfl

/-! ## Errors of `Unmarshal` and `MarshalTo` -/

/-- C2: for every receiver `r` and every input `data`, `Unmarshal` returns an error
exactly when the length of `data` is neither 0 nor 8; whenever it returns an error,
the error is `errUnmarshalSpanID` and the receiver is left unchanged. -/
theorem Unmarshal_error_iff (r : SpanID) (data : List Byte) :
    ((r.Unmarshal data).2 ≠ none ↔ (data.length ≠ 0 ∧ data.length ≠ 8)) ∧
    ((r.Unmarshal data).2 ≠ none → r.Unmarshal data = (r, some errUnmarshalSpanID)) := by
  by_cases h0 : data.length = 0
  · have h : r.Unmarshal data = (zeroValue, none) := by simp [SpanID.Unmarshal, h0]
    simp [h, h0]
  · by_cases h8 : data.length = 8
    · simp [SpanID.unmarshal_of_length_eight r data h8, h8]
    · simp [SpanID.unmarshal_of_bad_length r data h0 h8, h0, h8]

theorem Unmarshal_error_iff_witness :
    (sampleID.Unmarshal [1, 2, 3]).2 ≠ none ∧
    sampleID.Unmarshal [1, 2, 3] = (sampleID, some errUnmarshalSpanID) :=
  ⟨by decide, (Unmarshal_error_iff sampleID [1, 2, 3]).2 (by decide)⟩

/-- C3: for every SpanID `id` and every buffer `data`, `MarshalTo` returns an error
exactly when `id` is non-empty and the buffer is shorter than 8 bytes; whenever it
returns an error, the error is `errMarshalSpanID`, the returned count is 0 and the
buffer is unchanged. -/
theorem MarshalTo_error_iff (id : SpanID) (data : List Byte) :
    ((id.MarshalTo data).2.2 ≠ none ↔ (id.IsEmpty = false ∧ data.length < 8)) ∧
    ((id.MarshalTo data).2.2 ≠ none →
      id.MarshalTo data = (data, 0, some errMarshalSpanID)) := by
  cases he : id.IsEmpty
  · by_cases hlen : data.length < 8
    · simp [SpanID.marshalTo_of_short id data he hlen, hlen]
    · simp [SpanID.marshalTo_of_fits id data he (by omega), hlen]
  · simp [SpanID.marshalTo_of_isEmpty id data he]

theorem MarshalTo_error_iff_witness :
    (sampleID.MarshalTo [9, 9, 9, 9, 9, 9, 9]).2.2 ≠ none ∧
    sampleID.MarshalTo [9, 9, 9, 9, 9, 9, 9]
      = ([9, 9, 9, 9, 9, 9, 9], 0, some errMarshalSpanID) :=
  ⟨by decide, (MarshalTo_error_iff sampleID [9, 9, 9, 9, 9, 9, 9]).2 (by decide)⟩

/-! ## Successful `MarshalTo` -/

/-- C4: for every non-empty SpanID `id` and every buffer `data` of length at least 8,
`MarshalTo` returns count 8 and no error; afterwards the first 8 bytes of the buffer
are the 8 bytes of `id` in order, and the length of the buffer and every byte at
position 8 or beyond are unchanged. -/
theorem MarshalTo_nonEmpty_writes (id : SpanID) (data : List Byte)
    (hne : id.IsEmpty = false) (hlen : 8 ≤ data.length) :
    (id.MarshalTo data).2 = (8, none) ∧
    (id.MarshalTo data).1.take 8 = id.bytes ∧
    (∀ i : Fin spanIDSize, (id.MarshalTo data).1[i.val]? = some (id.get i)) ∧
    (id.MarshalTo data).1.length = data.length ∧
    (∀ i : Nat, 8 ≤ i → (id.MarshalTo data).1[i]? = data[i]?) := by
  have hb : id.bytes.length = 8 := id.size_eq
  rw [SpanID.marshalTo_of_fits id data hne hlen]
  refine ⟨rfl, ?_, ?_, ?_, ?_⟩
  · simp [List.take_append_eq_append_take, hb]
  · intro i
    have hi : i.val < id.bytes.length := by rw [hb]; exact i.isLt
    simp only []
    rw [List.getElem?_append_left hi]
    exact SpanID.getElem?_bytes id i
  · simp only [List.length_append, List.length_drop]
    omega
  · intro i hi
    simp only []
    rw [List.getElem?_append_right (by omega), hb, List.getElem?_drop]
    congr 1
    omega

theorem MarshalTo_nonEmpty_writes_witness :
    (sampleID.MarshalTo [9, 9, 9, 9, 9, 9, 9, 9, 7, 6]).2 = (8, none) ∧
    (sampleID.MarshalTo [9, 9, 9, 9, 9, 9, 9, 9, 7, 6]).1.take 8 = sampleID.bytes ∧
    (∀ i : Fin spanIDSize,
      (sampleID.MarshalTo [9, 9, 9, 9, 9, 9, 9, 9, 7, 6]).1[i.val]? = some (sampleID.get i)) ∧
    (sampleID.MarshalTo [9, 9, 9, 9, 9, 9, 9, 9, 7, 6]).1.length
      = [9, 9, 9, 9, 9, 9, 9, 9, 7, (6 : Byte)].length ∧
    (∀ i : Nat, 8 ≤ i → (sampleID.MarshalTo [9, 9, 9, 9, 9, 9, 9, 9, 7, 6]).1[i]?
      = [9, 9, 9, 9, 9, 9, 9, 9, 7, (6 : Byte)][i]?) :=
  MarshalTo_nonEmpty_writes sampleID [9, 9, 9, 9, 9, 9, 9, 9, 7, 6] (by decide) (by decide)

/-- C5: for the all-zero (empty) SpanID and every buffer `data` of any length,
the zero-length buffer included, `MarshalTo` returns count 0 and no error and leaves
the buffer unchanged. -/
theorem MarshalTo_empty (data : List Byte) :
    zeroValue.MarshalTo data = (data, 0, none) ∧ zeroValue.MarshalTo [] = ([], 0, none) :=
  ⟨SpanID.marshalTo_of_isEmpty zeroValue data zeroValue_isEmpty,
   SpanID.marshalTo_of_isEmpty zeroValue [] zeroValue_isEmpty⟩


/-! ## `Size` and `IsEmpty` -/

/-- C6: for every SpanID `id`, `Size` is 0 if and only if `IsEmpty` holds and is 8
if and only if `IsEmpty` does not hold, so `Size` only ever returns 0 or 8. -/
theorem Size_eq_zero_iff_IsEmpty (id : SpanID) :
    (id.Size = 0 ↔ id.IsEmpty = true) ∧ (id.Size = 8 ↔ id.IsEmpty = false) ∧
    (id.Size = 0 ∨ id.Size = 8) := by
  cases he : id.IsEmpty
  · simp [SpanID.size_of_not_isEmpty id he]
  · simp [SpanID.size_of_isEmpty id he]

/-- C7: for every SpanID `id` and every buffer `data` whose length is exactly
`Size(id)`, `MarshalTo` returns no error and the returned byte count is `Size(id)`. -/
theorem MarshalTo_exact_size (id : SpanID) (data : List Byte) (hlen : data.length = id.Size) :
    (id.MarshalTo data).2.2 = none ∧ (id.MarshalTo data).2.1 = id.Size := by
  cases he : id.IsEmpty
  · have hs := SpanID.size_of_not_isEmpty id he
    rw [SpanID.marshalTo_of_fits id data he (by omega), hs]
    exact ⟨rfl, rfl⟩
  · rw [SpanID.marshalTo_of_isEmpty id data he, SpanID.size_of_isEmpty id he]
    exact ⟨rfl, rfl⟩

theorem MarshalTo_exact_size_witness :
    ([0, 0, 0, 0, 0, 0, 0, 0] : List Byte).length = sampleID.Size ∧
    (sampleID.MarshalTo [0, 0, 0, 0, 0, 0, 0, 0]).2.2 = none ∧
    (sampleID.MarshalTo [0, 0, 0, 0, 0, 0, 0, 0]).2.1 = sampleID.Size :=
  ⟨by decide, MarshalTo_exact_size sampleID [0, 0, 0, 0, 0, 0, 0, 0] (by decide)⟩

/-- C8: for every SpanID `id`, `IsEmpty` is true if and only if all 8 bytes of `id`
are zero. -/
theorem IsEmpty_iff_all_bytes_zero (id : SpanID) :
    id.IsEmpty = true ↔ ∀ i : Fin spanIDSize, id.get i = 0 :=
  (SpanID.isEmpty_eq_true_iff id).trans (SpanID.eq_zeroValue_iff id)

/-- C9, as stated, fails: the identifier 00 00 00 00 00 00 00 01 has a non-zero byte
and `IsEmpty` is false on it, so it is not the case that `IsEmpty` is true for every
identifier with some non-zero byte. -/
theorem IsEmpty_nonzero_byte_counterexample :
    (∃ i : Fin spanIDSize, lastByteID.get i ≠ 0) ∧ lastByteID.IsEmpty = false ∧
    ¬ (∀ id : SpanID, (∃ i : Fin spanIDSize, id.get i ≠ 0) → id.IsEmpty = true) := by
  have hex : ∃ i : Fin spanIDSize, lastByteID.get i ≠ 0 := ⟨⟨7, by decide⟩, by decide⟩
  have hfalse : lastByteID.IsEmpty = false := by decide
  refine ⟨hex, hfalse, ?_⟩
  intro hall
  have htrue := hall lastByteID hex
  rw [hfalse] at htrue
  exact Bool.noConfusion htrue

/-- C9, amended: for every SpanID `id` with some byte different from zero, `IsEmpty`
is false. -/
theorem IsEmpty_false_of_nonzero_byte (id : SpanID)
    (h : ∃ i : Fin spanIDSize, id.get i ≠ 0) : id.IsEmpty = false := by
  rw [SpanID.isEmpty_eq_false_iff]
  intro hz
  obtain ⟨i, hi⟩ := h
  exact hi ((SpanID.eq_zeroValue_iff id).mp hz i)

theorem IsEmpty_false_of_nonzero_byte_witness :
    (∃ i : Fin spanIDSize, sampleID.get i ≠ 0) ∧ sampleID.IsEmpty = false :=
  ⟨⟨⟨0, by decide⟩, by decide⟩,
   IsEmpty_false_of_nonzero_byte sampleID ⟨⟨0, by decide⟩, by decide⟩⟩

/-! ## `Marshal` -/

/-- C10: for every SpanID `id`, the all-zero one included, `Marshal` returns no error
and exactly 8 bytes, equal to the bytes of `id` in order; for the empty identifier
`Marshal` yields 8 zero bytes while `MarshalTo` writes 0 bytes and leaves any buffer
unchanged. -/
theorem Marshal_returns_all_bytes (id : SpanID) :
    id.Marshal.2 = none ∧ id.Marshal.1.length = 8 ∧
    (∀ i : Fin spanIDSize, id.Marshal.1[i.val]? = some (id.get i)) ∧
    zeroValue.IsEmpty = true ∧
    zeroValue.Marshal = ([0, 0, 0, 0, 0, 0, 0, 0], none) ∧
    (∀ data : List Byte, (zeroValue.MarshalTo data).2.1 = 0 ∧
      (zeroValue.MarshalTo data).1 = data) := by
  refine ⟨rfl, id.size_eq, SpanID.getElem?_bytes id, zeroValue_isEmpty, rfl, ?_⟩
  intro data
  rw [SpanID.marshalTo_of_isEmpty zeroValue data zeroValue_isEmpty]
  exact ⟨rfl, rfl⟩


/-! ## Successful `Unmarshal` -/

/-- C11: for every prior receiver value `r`, `Unmarshal` of the zero-length input
returns no error and sets the receiver to the all-zero identifier, on which `IsEmpty`
holds. -/
theorem Unmarshal_zero_length (r : SpanID) :
    r.Unmarshal [] = (zeroValue, none) ∧ (r.Unmarshal []).1.IsEmpty = true ∧
    (∀ i : Fin spanIDSize, (r.Unmarshal []).1.get i = 0) := by
  rw [SpanID.unmarshal_nil r]
  exact ⟨rfl, zeroValue_isEmpty, (SpanID.eq_zeroValue_iff zeroValue).mp rfl⟩

/-- C12: for every prior receiver value `r` and every input `data` of length exactly 8,
`Unmarshal` returns no error and afterwards byte `i` of the receiver is `data[i]` for
every `i` from 0 to 7, so that the receiver holds exactly the bytes of `data`. -/
theorem Unmarshal_eight_bytes (r : SpanID) (data : List Byte) (hlen : data.length = 8) :
    (r.Unmarshal data).2 = none ∧
    (∀ i : Fin spanIDSize, data[i.val]? = some ((r.Unmarshal data).1.get i)) ∧
    (r.Unmarshal data).1.bytes = data := by
  rw [SpanID.unmarshal_of_length_eight r data hlen]
  exact ⟨rfl, SpanID.getElem?_bytes ⟨data, hlen⟩, rfl⟩

theorem Unmarshal_eight_bytes_witness :
    (lastByteID.Unmarshal [8, 7, 6, 5, 4, 3, 2, 1]).2 = none ∧
    (∀ i : Fin spanIDSize, [8, 7, 6, 5, 4, 3, 2, (1 : Byte)][i.val]?
      = some ((lastByteID.Unmarshal [8, 7, 6, 5, 4, 3, 2, 1]).1.get i)) ∧
    (lastByteID.Unmarshal [8, 7, 6, 5, 4, 3, 2, 1]).1.bytes = [8, 7, 6, 5, 4, 3, 2, 1] :=
  Unmarshal_eight_bytes lastByteID [8, 7, 6, 5, 4, 3, 2, 1] (by decide)

/-! ## JSON encoding and decoding -/

/-- C13: for every non-empty SpanID `id` and every prior receiver value `r`, with the
hex helpers modelled from the specification, `MarshalJSON` returns no error and
`UnmarshalJSON` applied to its output, decoding into the 9-byte buffer, returns no
error and leaves the receiver equal to `id`. -/
theorem UnmarshalJSON_MarshalJSON_roundtrip (id r : SpanID) (hne : id.IsEmpty = false) :
    (id.MarshalJSON marshalJSON).2 = none ∧
    r.UnmarshalJSON unmarshalJSON (id.MarshalJSON marshalJSON).1 = (id, none) := by
  have hb : id.bytes.length = 8 := id.size_eq
  have hm : id.MarshalJSON marshalJSON = marshalJSON id.bytes := by
    simp [SpanID.MarshalJSON, hne]
  rw [hm]
  refine ⟨rfl, ?_⟩
  rw [SpanID.unmarshalJSON_of_helper_ok unmarshalJSON r _ _
    (unmarshalJSON_marshalJSON id.bytes hb)]
  have htake : (id.bytes ++ [0]).take 8 = id.bytes := by
    rw [List.take_append_of_le_length (by omega), List.take_of_length_le (by omega)]
  rw [htake, SpanID.copyFrom_of_length zeroValue id.bytes hb]

theorem UnmarshalJSON_MarshalJSON_roundtrip_witness :
    sampleID.IsEmpty = false ∧ (sampleID.MarshalJSON marshalJSON).2 = none ∧
    lastByteID.UnmarshalJSON unmarshalJSON (sampleID.MarshalJSON marshalJSON).1
      = (sampleID, none) :=
  ⟨by decide, UnmarshalJSON_MarshalJSON_roundtrip sampleID lastByteID (by decide)⟩

/-- C14: for the all-zero (empty) SpanID, `MarshalJSON` returns no error and exactly
the two bytes of a pair of double quotes, whatever the helper `marshalJSON` is: the
helper is not consulted. -/
theorem MarshalJSON_empty (helper : MarshalHelper) :
    zeroValue.MarshalJSON helper = ([34, 34], none) := by
  simp [SpanID.MarshalJSON, zeroValue_isEmpty, quoteByte]


/-- C15: for every non-empty SpanID `id`, with the hex helper modelled from the
specification, `MarshalJSON` returns no error and 18 bytes: a double quote, then for
each of the 8 bytes of `id` in order its high and its low hexadecimal digit (digits
taken from 0123456789abcdef), then a double quote. The bytes 01 02 03 04 05 06 07 08
give the quoted text 0102030405060708, and `UnmarshalJSON` of that text sets any
receiver to those 8 bytes. -/
theorem MarshalJSON_nonEmpty_hex (id : SpanID) (hne : id.IsEmpty = false) :
    (id.MarshalJSON marshalJSON).2 = none ∧
    (id.MarshalJSON marshalJSON).1.length = 18 ∧
    (id.MarshalJSON marshalJSON).1[0]? = some 34 ∧
    (id.MarshalJSON marshalJSON).1[17]? = some 34 ∧
    (∀ i : Fin spanIDSize,
      (id.MarshalJSON marshalJSON).1[1 + 2 * i.val]? = some (hexDigit ((id.get i).val / 16)) ∧
      (id.MarshalJSON marshalJSON).1[2 + 2 * i.val]?
        = some (hexDigit ((id.get i).val % 16))) ∧
    (List.range 16).map hexDigit
      = [48, 49, 50, 51, 52, 53, 54, 55, 56, 57, 97, 98, 99, 100, 101, 102] ∧
    sampleID.MarshalJSON marshalJSON = (sampleJSON, none) ∧
    (∀ r : SpanID, r.UnmarshalJSON unmarshalJSON sampleJSON = (sampleID, none)) := by
  have hb : id.bytes.length = 8 := id.size_eq
  have hl : (hexEncode id.bytes).length = 16 := by rw [hexEncode_length, hb]
  have hm : id.MarshalJSON marshalJSON
      = (quoteByte :: (hexEncode id.bytes ++ [quoteByte]), none) := by
    simp [SpanID.MarshalJSON, hne, marshalJSON]
  rw [hm]
  refine ⟨rfl, ?_, ?_, ?_, ?_, by decide, by decide, ?_⟩
  · simp only [List.length_cons, List.length_append, List.length_nil, hl]
  · simp only [List.getElem?_cons_zero]
    rfl
  · simp only [List.getElem?_cons_succ]
    rw [List.getElem?_append_right (by omega), hl]
    rfl
  · intro i
    have hi : i.val < 8 := i.isLt
    have h1 : 1 + 2 * i.val = 2 * i.val + 1 := by omega
    have h2 : 2 + 2 * i.val = (2 * i.val + 1) + 1 := by omega
    have hg := hexEncode_getElem? id.bytes i.val
    rw [SpanID.getElem?_bytes id i] at hg
    constructor
    · rw [h1]
      simp only [List.getElem?_cons_succ]
      rw [List.getElem?_append_left (by omega)]
      exact hg.1
    · rw [h2]
      simp only [List.getElem?_cons_succ]
      rw [List.getElem?_append_left (by omega)]
      exact hg.2
  · intro r
    have hh : unmarshalJSON (List.replicate 9 0) sampleJSON
        = ([1, 2, 3, 4, 5, 6, 7, 8, 0], none) := by decide
    rw [SpanID.unmarshalJSON_of_helper_ok unmarshalJSON r _ _ hh]
    decide

theorem MarshalJSON_nonEmpty_hex_witness :
    (lastByteID.MarshalJSON marshalJSON).2 = none ∧
    (lastByteID.MarshalJSON marshalJSON).1.length = 18 ∧
    (lastByteID.MarshalJSON marshalJSON).1[0]? = some 34 ∧
    (lastByteID.MarshalJSON marshalJSON).1[17]? = some 34 ∧
    (∀ i : Fin spanIDSize,
      (lastByteID.MarshalJSON marshalJSON).1[1 + 2 * i.val]?
        = some (hexDigit ((lastByteID.get i).val / 16)) ∧
      (lastByteID.MarshalJSON marshalJSON).1[2 + 2 * i.val]?
        = some (hexDigit ((lastByteID.get i).val % 16))) ∧
    (List.range 16).map hexDigit
      = [48, 49, 50, 51, 52, 53, 54, 55, 56, 57, 97, 98, 99, 100, 101, 102] ∧
    sampleID.MarshalJSON marshalJSON = (sampleJSON, none) ∧
    (∀ r : SpanID, r.UnmarshalJSON unmarshalJSON sampleJSON = (sampleID, none)) :=
  MarshalJSON_nonEmpty_hex lastByteID (by decide)

/-- C16: for every prior receiver value `r`, with the helper modelled from the
specification, `UnmarshalJSON` applied to the two-byte literal of a pair of double
quotes returns no error and leaves the receiver equal to the all-zero identifier. -/
theorem UnmarshalJSON_empty_literal (r : SpanID) :
    r.UnmarshalJSON unmarshalJSON [34, 34] = (zeroValue, none) := by
  have hh : unmarshalJSON (List.replicate 9 0) [34, 34]
      = ([0, 0, 0, 0, 0, 0, 0, 0, 0], none) := by decide
  rw [SpanID.unmarshalJSON_of_helper_ok unmarshalJSON r _ _ hh]
  decide

/-- C17: for every helper `unmarshalJSON`, every receiver `r` and every input `data`,
`UnmarshalJSON` returns an error if and only if the helper, run on the zeroed 9-byte
buffer and `data`, returns one; and when the helper returns the error `e`,
`UnmarshalJSON` returns exactly `e` and leaves the receiver unchanged. -/
theorem UnmarshalJSON_error_iff (helper : UnmarshalHelper) (r : SpanID) (data : List Byte) :
    ((r.UnmarshalJSON helper data).2 ≠ none ↔ (helper (List.replicate 9 0) data).2 ≠ none) ∧
    (∀ e : GoError, (helper (List.replicate 9 0) data).2 = some e →
      r.UnmarshalJSON helper data = (r, some e)) := by
  rcases hh : helper (List.replicate 9 0) data with ⟨buf, _ | e⟩
  · rw [SpanID.unmarshalJSON_of_helper_ok helper r data buf hh]
    simp
  · rw [SpanID.unmarshalJSON_of_helper_error helper r data buf e hh]
    simp

theorem UnmarshalJSON_error_iff_witness :
    (unmarshalJSON (List.replicate 9 0) [34, 122, 122, 34]).2 = some errMalformedID ∧
    sampleID.UnmarshalJSON unmarshalJSON [34, 122, 122, 34]
      = (sampleID, some errMalformedID) :=
  ⟨by decide,
   (UnmarshalJSON_error_iff unmarshalJSON sampleID [34, 122, 122, 34]).2 errMalformedID
     (by decide)⟩

/-- C18: for every helper `unmarshalJSON` that leaves the length of its destination
slice as it was, and every input `data` on which the helper, run on the zeroed 9-byte
buffer, succeeds: `UnmarshalJSON` returns no error, the receiver afterwards holds the
first 8 bytes of the buffer the helper filled, and two runs from the prior receivers
`r1` and `r2` end in the same value. -/
theorem UnmarshalJSON_receiver_independent (helper : UnmarshalHelper)
    (hlen : ∀ dst src : List Byte, (helper dst src).1.length = dst.length)
    (r1 r2 : SpanID) (data : List Byte)
    (hok : (helper (List.replicate 9 0) data).2 = none) :
    (r1.UnmarshalJSON helper data).2 = none ∧
    (r1.UnmarshalJSON helper data).1.bytes = (helper (List.replicate 9 0) data).1.take 8 ∧
    r1.UnmarshalJSON helper data = r2.UnmarshalJSON helper data := by
  have hl := hlen (List.replicate 9 0) data
  rcases hh : helper (List.replicate 9 0) data with ⟨buf, err⟩
  rw [hh] at hok hl
  have herr : err = none := hok
  subst herr
  have hbuf : buf.length = 9 := by
    rw [hl, List.length_replicate]
  have ht : (buf.take 8).length = 8 := by
    rw [List.length_take, hbuf]
    rfl
  rw [SpanID.unmarshalJSON_of_helper_ok helper r1 data buf hh,
    SpanID.unmarshalJSON_of_helper_ok helper r2 data buf hh,
    SpanID.copyFrom_of_length zeroValue (buf.take 8) ht]
  exact ⟨rfl, rfl, rfl⟩

theorem UnmarshalJSON_receiver_independent_witness :
    (unmarshalJSON (List.replicate 9 0) sampleJSON).2 = none ∧
    (lastByteID.UnmarshalJSON unmarshalJSON sampleJSON).2 = none ∧
    (lastByteID.UnmarshalJSON unmarshalJSON sampleJSON).1.bytes
      = (unmarshalJSON (List.replicate 9 0) sampleJSON).1.take 8 ∧
    lastByteID.UnmarshalJSON unmarshalJSON sampleJSON
      = zeroValue.UnmarshalJSON unmarshalJSON sampleJSON :=
  ⟨by decide,
   UnmarshalJSON_receiver_independent unmarshalJSON unmarshalJSON_length
     lastByteID zeroValue sampleJSON (by decide)⟩

/-! ## Wire round trip and non-injectivity of decoding -/

/-- C19: for every SpanID `id`, empty or not, every buffer `buf` of length `Size(id)`
and every prior receiver value `r`: `MarshalTo` returns no error and a count `n`, and
`Unmarshal` of the first `n` bytes of the buffer returns no error and leaves the
receiver equal to `id`. -/
theorem MarshalTo_Unmarshal_wire_roundtrip (id r : SpanID) (buf : List Byte)
    (hlen : buf.length = id.Size) :
    (id.MarshalTo buf).2.2 = none ∧
    r.Unmarshal ((id.MarshalTo buf).1.take (id.MarshalTo buf).2.1) = (id, none) := by
  cases he : id.IsEmpty
  · have hs := SpanID.size_of_not_isEmpty id he
    have hb : id.bytes.length = 8 := id.size_eq
    have hdrop : buf.drop 8 = [] := List.drop_of_length_le (by omega)
    rw [SpanID.marshalTo_of_fits id buf he (by omega), hdrop, List.append_nil]
    refine ⟨rfl, ?_⟩
    have htake : id.bytes.take 8 = id.bytes := List.take_of_length_le (by omega)
    show r.Unmarshal (id.bytes.take 8) = (id, none)
    rw [htake, SpanID.unmarshal_of_length_eight r id.bytes hb]
  · have hz : id = zeroValue := (SpanID.isEmpty_eq_true_iff id).mp he
    rw [SpanID.marshalTo_of_isEmpty id buf he]
    refine ⟨rfl, ?_⟩
    show r.Unmarshal (buf.take 0) = (id, none)
    rw [List.take_zero, SpanID.unmarshal_nil r, hz]

theorem MarshalTo_Unmarshal_wire_roundtrip_witness :
    ([5, 5, 5, 5, 5, 5, 5, 5] : List Byte).length = sampleID.Size ∧
    (sampleID.MarshalTo [5, 5, 5, 5, 5, 5, 5, 5]).2.2 = none ∧
    lastByteID.Unmarshal ((sampleID.MarshalTo [5, 5, 5, 5, 5, 5, 5, 5]).1.take
      (sampleID.MarshalTo [5, 5, 5, 5, 5, 5, 5, 5]).2.1) = (sampleID, none) :=
  ⟨by decide,
   MarshalTo_Unmarshal_wire_roundtrip sampleID lastByteID [5, 5, 5, 5, 5, 5, 5, 5] (by decide)⟩

/-- C20: binary decoding is not injective on valid inputs. For every prior receiver
value `r`, `Unmarshal` of the zero-length input and `Unmarshal` of eight zero bytes
both return no error and yield the same, empty, identifier although the two inputs
differ; `Marshal` after `Unmarshal` returns the input for every 8-byte input, but for
the zero-length input it returns 8 zero bytes, which is not the input. -/
theorem Unmarshal_not_injective (r : SpanID) :
    r.Unmarshal [] = (zeroValue, none) ∧
    r.Unmarshal [0, 0, 0, 0, 0, 0, 0, 0] = (zeroValue, none) ∧
    ([] : List Byte) ≠ [0, 0, 0, 0, 0, 0, 0, 0] ∧
    (∀ data : List Byte, data.length = 8 →
      (r.Unmarshal data).2 = none ∧ (r.Unmarshal data).1.Marshal = (data, none)) ∧
    (r.Unmarshal []).1.Marshal = ([0, 0, 0, 0, 0, 0, 0, 0], none) ∧
    (r.Unmarshal []).1.Marshal.1 ≠ [] := by
  refine ⟨SpanID.unmarshal_nil r, ?_, by decide, ?_, ?_, ?_⟩
  · rw [SpanID.unmarshal_of_length_eight r [0, 0, 0, 0, 0, 0, 0, 0] rfl]
    rfl
  · intro data hlen
    rw [SpanID.unmarshal_of_length_eight r data hlen]
    exact ⟨rfl, rfl⟩
  · rw [SpanID.unmarshal_nil r]
    rfl
  · rw [SpanID.unmarshal_nil r]
    decide

theorem Unmarshal_not_injective_witness :
    (sampleID.Unmarshal [8, 7, 6, 5, 4, 3, 2, 1]).2 = none ∧
    (sampleID.Unmarshal [8, 7, 6, 5, 4, 3, 2, 1]).1.Marshal
      = ([8, 7, 6, 5, 4, 3, 2, 1], none) :=
  (Unmarshal_not_injective sampleID).2.2.2.1 [8, 7, 6, 5, 4, 3, 2, 1] (by decide)


end Model
